import Mathlib

/-!
Shallow embedding of `steam_train_fuel/src/lib.rs` (crate `steam_train_fuel`).

Modelling conventions:
* Rust `usize` is modelled as `Nat` and `isize` as `Int`.  The claims under
  study only concern values far below the 64-bit bounds, so machine-width
  wraparound of *in-range* arithmetic is not modelled; however, the one
  arithmetic operation in the source that can actually underflow on the
  values the claims quantify over (the `usize` subtraction `*fuel - amount`
  in `Train::stow_fuel`) is modelled explicitly, with checked ("debug
  profile") semantics: the underflow is a Rust panic.  `cargo test` builds
  in the debug profile, so checked arithmetic is the semantics the crate's
  own tests run under.
* A fallible Rust operation returning `Result<T, Error>` is modelled as
  `Except RtErr T`, where `RtErr.err` is a returned `Err` value (the
  source's `pub type Error = &'static str`) and `RtErr.panicked` is a Rust
  panic that unwinds out of the caller.
* The field `stashes: HashMap<usize, usize>` is modelled as an association
  list `List (Nat × Nat)`; `lookupStash`, `removeStash` and `addStash`
  implement exactly the `get`/`remove`/`entry(..).or_insert(0) += amount`
  operations the source performs on the map.  Rust's `HashMap` maintains
  key uniqueness structurally; where a theorem needs that representation
  invariant on an arbitrary `Train` it is an explicit hypothesis
  (`(stashes.map Prod.fst).Nodup`).
-/

namespace SteamTrainFuel

/-- Source: `pub type Error = &'static str`. -/
abbrev Error := String

/-- Error string of `Train::travel` when the new location is negative. -/
def movedBeyondDepot : Error := "moved beyond depot"

/-- Error string of `Train::travel` when the consumed fuel exceeds the tank. -/
def fuelExhausted : Error := "used more fuel than was in the tank"

/-- Error string of `Train::stow_fuel` at location 0. -/
def stowAtDepot : Error := "cannot stow fuel at the depot"

/-- Error string written in `Train::stow_fuel` for a stow amount exceeding the
fuel; see `Train.stow_fuel` for why the source can never return it. -/
def insufficientFuelToStow : Error := "stowed more fuel than was in the tank"

/-- Error string of `simulate` when the strategy returns `None`. -/
def strategyExhausted : Error := "strategy returned None"

/-- Error string of `simulate` when all 20 iterations complete (the typo
"couter" is the source's). -/
def iterationCapExceeded : Error := "simulation max iteration couter reached"

/-- Message of the Rust panic raised by a checked `usize` subtraction that
underflows (debug profile). -/
def subtractOverflow : String := "attempt to subtract with overflow"

/-- Outcome of a fallible operation: a returned `Err` value, or a Rust panic
that unwinds out of the operation instead of producing a `Result` at all. -/
inductive RtErr where
  | err (msg : Error)
  | panicked (msg : String)
deriving DecidableEq, Repr

instance {ε α : Type} [DecidableEq ε] [DecidableEq α] :
    DecidableEq (Except ε α) := fun x y =>
  match x, y with
  | .ok a, .ok b =>
      if h : a = b then .isTrue (congrArg Except.ok h)
      else .isFalse (fun hc => h (Except.ok.inj hc))
  | .ok _, .error _ => .isFalse (fun hc => Except.noConfusion hc)
  | .error _, .ok _ => .isFalse (fun hc => Except.noConfusion hc)
  | .error e, .error f =>
      if h : e = f then .isTrue (congrArg Except.error h)
      else .isFalse (fun hc => h (Except.error.inj hc))

/-- Source: `pub struct GoalSpec { capacity: usize, destination: usize }`. -/
structure GoalSpec where
  capacity : Nat
  destination : Nat
deriving DecidableEq, Repr

/-- Source: `GoalSpec::new`, which panics ("illegal trivial goal") when
`destination <= capacity`; the panic is modelled as `none`. -/
def GoalSpec.new (capacity destination : Nat) : Option GoalSpec :=
  if destination ≤ capacity then none else some ⟨capacity, destination⟩

/-- Source: `HashMap::get(&location).copied()` on the stashes map. -/
def lookupStash : List (Nat × Nat) → Nat → Option Nat
  | [], _ => none
  | (k, v) :: rest, loc => if k = loc then some v else lookupStash rest loc

/-- Source: `HashMap::remove(&location)` on the stashes map. -/
def removeStash : List (Nat × Nat) → Nat → List (Nat × Nat)
  | [], _ => []
  | (k, v) :: rest, loc => if k = loc then rest else (k, v) :: removeStash rest loc

/-- Source: `stashes.entry(*location).or_insert(0); *stash_amount += amount`. -/
def addStash : List (Nat × Nat) → Nat → Nat → List (Nat × Nat)
  | [], loc, amount => [(loc, amount)]
  | (k, v) :: rest, loc, amount =>
      if k = loc then (k, v + amount) :: rest else (k, v) :: addStash rest loc amount

/-- Source: `pub struct Train { spec, location, fuel, stashes }`. -/
structure Train where
  spec : GoalSpec
  location : Nat
  fuel : Nat
  stashes : List (Nat × Nat)
deriving DecidableEq, Repr

/-- Source: `Train::from(spec)` (named `from` in the source, a keyword in
Lean): starts at the origin with a full tank and no stashes. -/
def Train.fromSpec (spec : GoalSpec) : Train :=
  { spec := spec, location := 0, fuel := spec.capacity, stashes := [] }

/-- Source: `Train::new(capacity, destination)`; inherits the construction
panic of `GoalSpec::new`, modelled as `none`. -/
def Train.new (capacity destination : Nat) : Option Train :=
  (GoalSpec.new capacity destination).map Train.fromSpec

/-- Source: `Train::stowed_at(location)`. -/
def Train.stowed_at (t : Train) (location : Nat) : Option Nat :=
  lookupStash t.stashes location

/-- Source: `Train::travel(distance)`.  Line by line:
`((*location as isize) + distance).try_into()` fails (to `usize`) exactly
when the sum is negative; `((*fuel as isize) - distance.abs()).try_into()`
fails exactly when the difference is negative; then the arrival effects
resolve in the source's order: stash pickup, else depot refuel, else the
computed fuel. -/
def Train.travel (t : Train) (d : Int) : Except RtErr Train :=
  if (t.location : Int) + d < 0 then
    .error (.err "moved beyond depot")
  else if (t.fuel : Int) - (d.natAbs : Int) < 0 then
    .error (.err "used more fuel than was in the tank")
  else
    match lookupStash t.stashes ((t.location : Int) + d).toNat with
    | some stashed =>
        .ok { spec := t.spec, location := ((t.location : Int) + d).toNat,
              fuel := ((t.fuel : Int) - (d.natAbs : Int)).toNat + stashed,
              stashes := removeStash t.stashes ((t.location : Int) + d).toNat }
    | none =>
        if ((t.location : Int) + d).toNat = 0 then
          .ok { spec := t.spec, location := ((t.location : Int) + d).toNat,
                fuel := t.spec.capacity, stashes := t.stashes }
        else
          .ok { spec := t.spec, location := ((t.location : Int) + d).toNat,
                fuel := ((t.fuel : Int) - (d.natAbs : Int)).toNat,
                stashes := t.stashes }

/-- Source: `Train::stow_fuel(amount)`.  The depot check comes first.  The
subtraction `*fuel - amount` is performed on `usize` *before* the
`try_into`; since the target type is also `usize` that conversion is
infallible, so the `map_err` to "stowed more fuel than was in the tank" is
dead code, and when `amount > fuel` the subtraction itself underflows — a
panic under checked (debug) arithmetic — instead of returning the error. -/
def Train.stow_fuel (t : Train) (amount : Nat) : Except RtErr Train :=
  if t.location = 0 then
    .error (.err "cannot stow fuel at the depot")
  else if t.fuel < amount then
    .error (.panicked "attempt to subtract with overflow")
  else
    .ok { spec := t.spec, location := t.location, fuel := t.fuel - amount,
          stashes := addStash t.stashes t.location amount }

/-- Source: `enum Command { Travel(isize), StowFuel(usize) }`. -/
inductive Command where
  | Travel (distance : Int)
  | StowFuel (amount : Nat)
deriving DecidableEq, Repr

/-- Source: `Train::update(command)`: dispatch on the command variant. -/
def Train.update (t : Train) (c : Command) : Except RtErr Train :=
  match c with
  | .Travel distance => t.travel distance
  | .StowFuel amount => t.stow_fuel amount

/-- Source: `Train::meets_goal(goal)`. -/
def Train.meets_goal (t : Train) (goal : GoalSpec) : Bool :=
  t.location = goal.destination

/-- Source: `trait Strategy { fn decide(&mut self, state, goal) -> Option<Command> }`.
The `&mut self` receiver is modelled as explicit strategy-state passing:
`decide` consumes a strategy state of type `σ` and returns the optional
command together with the updated strategy state. -/
def StrategyFn (σ : Type) : Type :=
  σ → Train → GoalSpec → Option Command × σ

/-- Source: the `impl<'a, T: Iterator<Item = &'a Command>> Strategy for T`
instance, which replays a fixed command list and returns `None` once it is
exhausted. -/
def listStrategy : StrategyFn (List Command) :=
  fun cmds _ _ => (cmds.head?, cmds.tail)

/-- Source: `struct SimulationSummary` minus the `states: Option<Vec<Train>>`
field, which is only a memoisation cache for `states()` (the replay is
recomputed on demand here). -/
structure SimulationSummary where
  goal : GoalSpec
  final_state : Train
  result : Except Error Unit
  commands : List Command
deriving DecidableEq, Repr

/-- Source: the replay loop inside `SimulationSummary::states`: starting from
`Train::from(goal)` it pushes each pre-command state, applies the command
with `.unwrap()` — so a failing replayed command is a panic, modelled as
`none` — and finally pushes the last state. -/
def replayGo : Train → List Command → Option (List Train)
  | state, [] => some [state]
  | state, c :: cs =>
      match state.update c with
      | .ok new_state => (replayGo new_state cs).map (fun l => state :: l)
      | .error _ => none

/-- Source: `SimulationSummary::states()`: replay the recorded command trace
from the goal's initial state.  `none` models the `.unwrap()` panic on a
failing replayed command. -/
def SimulationSummary.states (s : SimulationSummary) : Option (List Train) :=
  replayGo (Train.fromSpec s.goal) s.commands

/-- Source: `SimulationSummary::fuel_used()`: sum of `distance.abs()` over the
`Travel` commands of the trace; `StowFuel` contributes 0. -/
def commandFuel : Command → Nat
  | .Travel distance => distance.natAbs
  | .StowFuel _ => 0

/-- Source: `SimulationSummary::fuel_used()`. -/
def SimulationSummary.fuel_used (s : SimulationSummary) : Nat :=
  (s.commands.map commandFuel).sum

/-- Source: the `for _ in 0..20` loop body of `simulate`, with the loop's
mutable variables (`state`, the strategy, `commands`, `states`) passed
explicitly and the remaining iteration count as fuel.  The result type's
`.error` constructor models a panic unwinding out of `simulate`: either the
`assert_eq!(summary.states(), &states[..])` on the success path, or a panic
raised by a transition (see `Train.stow_fuel`).  The `List Train` paired
with the returned summary is the driver's internal live `states` buffer,
exposed so that theorems can compare it with the replayed history. -/
def simulateLoop {σ : Type} (goal : GoalSpec) (dec : StrategyFn σ) :
    Nat → Train → σ → List Command → List Train →
    Except String (SimulationSummary × List Train)
  | 0, state, _, commands, states =>
      .ok (⟨goal, state, .error "simulation max iteration couter reached", commands⟩, states)
  | n + 1, state, strat, commands, states =>
      if state.meets_goal goal then
        if (SimulationSummary.mk goal state (.ok ()) commands).states
            = some (states ++ [state]) then
          .ok (⟨goal, state, .ok (), commands⟩, states ++ [state])
        else
          .error "assertion failed: summary.states() == states"
      else
        match dec strat state goal with
        | (some command, strat') =>
            match state.update command with
            | .ok new_state =>
                simulateLoop goal dec n new_state strat'
                  (commands ++ [command]) (states ++ [state])
            | .error (.err e) =>
                .ok (⟨goal, state, .error e, commands ++ [command]⟩, states ++ [state])
            | .error (.panicked msg) => .error msg
        | (none, _) =>
            .ok (⟨goal, state, .error "strategy returned None", commands⟩, states ++ [state])

/-- Source: `simulate(goal, strategy)`: run the loop for 20 iterations from
the initial state. -/
def simulate {σ : Type} (goal : GoalSpec) (strat : σ) (dec : StrategyFn σ) :
    Except String (SimulationSummary × List Train) :=
  simulateLoop goal dec 20 (Train.fromSpec goal) strat [] []

theorem lookupStash_addStash_self (s : List (Nat × Nat)) (loc amount : Nat) :
    lookupStash (addStash s loc amount) loc
      = some ((lookupStash s loc).getD 0 + amount) := by
  induction s with
  | nil => simp [addStash, lookupStash]
  | cons p rest ih =>
      obtain ⟨k, v⟩ := p
      by_cases hk : k = loc
      · subst hk
        simp [addStash, lookupStash]
      · simp [addStash, lookupStash, hk, ih]

theorem lookupStash_addStash_ne (s : List (Nat × Nat)) (loc amount x : Nat)
    (h : x ≠ loc) :
    lookupStash (addStash s loc amount) x = lookupStash s x := by
  induction s with
  | nil => simp [addStash, lookupStash, Ne.symm h]
  | cons p rest ih =>
      obtain ⟨k, v⟩ := p
      by_cases hk : k = loc
      · subst hk
        simp [addStash, lookupStash, Ne.symm h]
      · by_cases hx : k = x <;> simp [addStash, lookupStash, hk, hx, ih, h]

theorem lookupStash_eq_none_of_not_mem (s : List (Nat × Nat)) (x : Nat)
    (h : x ∉ s.map Prod.fst) : lookupStash s x = none := by
  induction s with
  | nil => simp [lookupStash]
  | cons p rest ih =>
      obtain ⟨k, v⟩ := p
      simp only [List.map_cons, List.mem_cons, not_or] at h
      simp [lookupStash, Ne.symm h.1, ih h.2]

theorem lookupStash_removeStash_self (s : List (Nat × Nat)) (loc : Nat)
    (h : (s.map Prod.fst).Nodup) :
    lookupStash (removeStash s loc) loc = none := by
  induction s with
  | nil => simp [removeStash, lookupStash]
  | cons p rest ih =>
      obtain ⟨k, v⟩ := p
      simp only [List.map_cons, List.nodup_cons] at h
      by_cases hk : k = loc
      · subst hk
        simpa [removeStash] using lookupStash_eq_none_of_not_mem rest k h.1
      · simp [removeStash, lookupStash, hk, ih h.2]

theorem lookupStash_removeStash_of_eq_none (s : List (Nat × Nat)) (loc x : Nat)
    (h : lookupStash s x = none) :
    lookupStash (removeStash s loc) x = none := by
  induction s with
  | nil => simp [removeStash, lookupStash]
  | cons p rest ih =>
      obtain ⟨k, v⟩ := p
      by_cases hx : k = x
      · subst hx
        simp [lookupStash] at h
      · simp only [lookupStash, if_neg hx] at h
        by_cases hk : k = loc
        · simpa [removeStash, hk] using h
        · simp [removeStash, lookupStash, hk, hx, ih h]

/-- C1: the spec claims that for every train away from the depot, stowing more
fuel than the tank holds returns the `InsufficientFuelToStow` error
("stowed more fuel than was in the tank") instead of panicking.  The code
instead performs the `usize` subtraction `*fuel - amount` before its
infallible `usize → usize` conversion, so at a concrete failing input
(location 150, fuel 300, stowing 301) it panics with a subtraction overflow
and never produces the claimed error value. -/
theorem stow_fuel_underflow_panics :
    (Train.mk ⟨500, 9999⟩ 150 300 []).stow_fuel 301
        = .error (.panicked subtractOverflow) ∧
      (Train.mk ⟨500, 9999⟩ 150 300 []).stow_fuel 301
        ≠ .error (.err insufficientFuelToStow) := by
  exact ⟨rfl, by decide⟩

/-- C3: for every train (with the `HashMap` key-uniqueness representation
invariant on its stashes), if the new location `L + d` is nonnegative and
`|d|` does not exceed the fuel, `travel d` succeeds; the new location is
`L + d`, the spec is unchanged, and the fuel resolves in the source's
precedence order: stash pickup (with removal of the stash entry), else depot
refuel to capacity, else exactly `fuel - |d|`. -/
theorem travel_success_spec (t : Train) (d : Int)
    (hwf : (t.stashes.map Prod.fst).Nodup)
    (hloc : 0 ≤ (t.location : Int) + d)
    (hfuel : d.natAbs ≤ t.fuel) :
    ∃ t', t.travel d = .ok t' ∧
      t'.location = ((t.location : Int) + d).toNat ∧
      t'.spec = t.spec ∧
      (∀ stashed, t.stowed_at (((t.location : Int) + d).toNat) = some stashed →
          t'.fuel = t.fuel - d.natAbs + stashed ∧
          t'.stowed_at (((t.location : Int) + d).toNat) = none) ∧
      (t.stowed_at (((t.location : Int) + d).toNat) = none →
        (((t.location : Int) + d).toNat = 0 → t'.fuel = t.spec.capacity) ∧
        (((t.location : Int) + d).toNat ≠ 0 → t'.fuel = t.fuel - d.natAbs)) := by
  have hfuelI : ¬ ((t.fuel : Int) - (d.natAbs : Int) < 0) := by
    generalize d.natAbs = n at hfuel ⊢
    omega
  have hfuelN : ((t.fuel : Int) - (d.natAbs : Int)).toNat = t.fuel - d.natAbs := by
    generalize d.natAbs = n at hfuel ⊢
    omega
  unfold Train.travel
  rw [if_neg (not_lt.mpr hloc), if_neg hfuelI]
  rcases hstash : lookupStash t.stashes (((t.location : Int) + d).toNat) with _ | stashed
  · by_cases h0 : ((t.location : Int) + d).toNat = 0
    · rw [if_pos h0]
      refine ⟨_, rfl, rfl, rfl, ?_, ?_⟩
      · intro stashed hs
        simp [Train.stowed_at, hstash] at hs
      · exact fun _ => ⟨fun _ => rfl, fun h => absurd h0 h⟩
    · rw [if_neg h0]
      refine ⟨_, rfl, rfl, rfl, ?_, ?_⟩
      · intro stashed hs
        simp [Train.stowed_at, hstash] at hs
      · exact fun _ => ⟨fun h => absurd h h0, fun _ => hfuelN⟩
  · refine ⟨_, rfl, rfl, rfl, ?_, ?_⟩
    · intro stashed' hs
      have hs' : stashed = stashed' := by
        simpa [Train.stowed_at, hstash] using hs
      subst hs'
      exact ⟨by rw [hfuelN], lookupStash_removeStash_self t.stashes _ hwf⟩
    · intro hs
      simp [Train.stowed_at, hstash] at hs

/-- C3 witness: the theorem applied at a concrete train carrying a stash at
the destination of the travel. -/
theorem travel_success_spec_witness :
    ∃ t', (Train.mk ⟨500, 600⟩ 0 500 [(100, 300)]).travel 100 = .ok t' ∧
      t'.location = (((0 : Nat) : Int) + 100).toNat ∧
      t'.spec = (Train.mk ⟨500, 600⟩ 0 500 [(100, 300)]).spec ∧
      (∀ stashed,
          (Train.mk ⟨500, 600⟩ 0 500 [(100, 300)]).stowed_at
              ((((0 : Nat) : Int) + 100).toNat) = some stashed →
          t'.fuel = 500 - (100 : Int).natAbs + stashed ∧
          t'.stowed_at ((((0 : Nat) : Int) + 100).toNat) = none) ∧
      ((Train.mk ⟨500, 600⟩ 0 500 [(100, 300)]).stowed_at
            ((((0 : Nat) : Int) + 100).toNat) = none →
        ((((0 : Nat) : Int) + 100).toNat = 0 → t'.fuel = 500) ∧
        ((((0 : Nat) : Int) + 100).toNat ≠ 0 →
          t'.fuel = 500 - (100 : Int).natAbs)) :=
  travel_success_spec (Train.mk ⟨500, 600⟩ 0 500 [(100, 300)]) 100
    (by decide) (by decide) (by decide)

/-- C4: `travel` decides the depot check first: it fails with
`MovedBeyondDepot` exactly when the new location is negative; otherwise it
fails with `FuelExhausted` exactly when `|d|` exceeds the fuel; otherwise it
succeeds.  In particular a train at location 1 with fuel 101 travelling -2
fails with `MovedBeyondDepot`. -/
theorem travel_error_precedence :
    (∀ (t : Train) (d : Int),
      ((t.location : Int) + d < 0 →
        t.travel d = .error (.err movedBeyondDepot)) ∧
      (0 ≤ (t.location : Int) + d → t.fuel < d.natAbs →
        t.travel d = .error (.err fuelExhausted)) ∧
      (0 ≤ (t.location : Int) + d → d.natAbs ≤ t.fuel →
        ∃ t', t.travel d = .ok t')) ∧
    (Train.mk ⟨500, 9999⟩ 1 101 []).travel (-2)
      = .error (.err movedBeyondDepot) := by
  refine ⟨fun t d => ⟨?_, ?_, ?_⟩, rfl⟩
  · intro h
    unfold Train.travel
    rw [if_pos h]
    rfl
  · intro h1 h2
    have hneg : (t.fuel : Int) - (d.natAbs : Int) < 0 := by
      generalize d.natAbs = n at h2 ⊢
      omega
    unfold Train.travel
    rw [if_neg (not_lt.mpr h1), if_pos hneg]
    rfl
  · intro h1 h2
    have hI : ¬ ((t.fuel : Int) - (d.natAbs : Int) < 0) := by
      generalize d.natAbs = n at h2 ⊢
      omega
    unfold Train.travel
    rw [if_neg (not_lt.mpr h1), if_neg hI]
    split
    · exact ⟨_, rfl⟩
    · split
      · exact ⟨_, rfl⟩
      · exact ⟨_, rfl⟩

/-- C4 witness: the three branches of the theorem exercised at concrete
inputs. -/
theorem travel_error_precedence_witness :
    (Train.mk ⟨500, 9999⟩ 1 101 []).travel (-2)
        = .error (.err movedBeyondDepot) ∧
      (Train.mk ⟨500, 9999⟩ 0 500 []).travel 501
        = .error (.err fuelExhausted) ∧
      ∃ t', (Train.mk ⟨500, 9999⟩ 0 500 []).travel 500 = .ok t' :=
  ⟨(travel_error_precedence.1 (Train.mk ⟨500, 9999⟩ 1 101 []) (-2)).1
      (by decide),
   (travel_error_precedence.1 (Train.mk ⟨500, 9999⟩ 0 500 []) 501).2.1
      (by decide) (by decide),
   (travel_error_precedence.1 (Train.mk ⟨500, 9999⟩ 0 500 []) 500).2.2
      (by decide) (by decide)⟩

/-- C8: `stow_fuel` fails with `StowAtDepot` at location 0 regardless of the
amount; away from the depot, with `amount ≤ fuel`, it succeeds, reduces the
fuel by the amount, keeps location and spec, and adds the amount to the stash
entry at the current location (creating it if absent, so repeated stows at
the same location sum — captured by the `getD 0` formula). -/
theorem stow_fuel_spec :
    (∀ (t : Train) (amount : Nat), t.location = 0 →
        t.stow_fuel amount = .error (.err stowAtDepot)) ∧
    (∀ (t : Train) (amount : Nat), t.location ≠ 0 → amount ≤ t.fuel →
      ∃ t', t.stow_fuel amount = .ok t' ∧
        t'.fuel = t.fuel - amount ∧
        t'.location = t.location ∧
        t'.spec = t.spec ∧
        t'.stowed_at t.location
          = some ((t.stowed_at t.location).getD 0 + amount)) := by
  constructor
  · intro t amount h
    unfold Train.stow_fuel
    rw [if_pos h]
    rfl
  · intro t amount h ha
    unfold Train.stow_fuel
    rw [if_neg h, if_neg (not_lt.mpr ha)]
    exact ⟨_, rfl, rfl, rfl, rfl,
      lookupStash_addStash_self t.stashes t.location amount⟩

/-- C8 witness: the depot branch at the spec's own scenario
(`Train::new(500, _)` then `stow_fuel(1)`) and the success branch at a train
at location 150 with fuel 350 stowing 50. -/
theorem stow_fuel_spec_witness :
    (Train.fromSpec ⟨500, 9999⟩).stow_fuel 1 = .error (.err stowAtDepot) ∧
    ∃ t', (Train.mk ⟨500, 9999⟩ 150 350 []).stow_fuel 50 = .ok t' ∧
      t'.fuel = (Train.mk ⟨500, 9999⟩ 150 350 []).fuel - 50 ∧
      t'.location = (Train.mk ⟨500, 9999⟩ 150 350 []).location ∧
      t'.spec = (Train.mk ⟨500, 9999⟩ 150 350 []).spec ∧
      t'.stowed_at (Train.mk ⟨500, 9999⟩ 150 350 []).location
        = some (((Train.mk ⟨500, 9999⟩ 150 350 []).stowed_at
            (Train.mk ⟨500, 9999⟩ 150 350 []).location).getD 0 + 50) :=
  ⟨stow_fuel_spec.1 (Train.fromSpec ⟨500, 9999⟩) 1 rfl,
   stow_fuel_spec.2 (Train.mk ⟨500, 9999⟩ 150 350 []) 50
      (by decide) (by decide)⟩

/-- States reachable from a goal's initial state (origin, full tank, no
stashes) by sequences of successful `travel` and `stow_fuel` transitions. -/
inductive Reachable (goal : GoalSpec) : Train → Prop where
  | init : Reachable goal (Train.fromSpec goal)
  | travel {t u : Train} {d : Int} :
      Reachable goal t → t.travel d = .ok u → Reachable goal u
  | stow {t u : Train} {a : Nat} :
      Reachable goal t → t.stow_fuel a = .ok u → Reachable goal u

/-- C9: every reachable train has nonnegative location and fuel (structural
in the `usize`-as-`Nat` model) and never carries a stash entry at the depot:
`stow_fuel` refuses to create one at location 0 and `travel` only ever
removes entries, so the stash-pickup rule and the depot-refuel rule of
`travel` can never both apply to one arrival. -/
theorem reachable_invariant (goal : GoalSpec) (t : Train)
    (h : Reachable goal t) :
    0 ≤ t.location ∧ 0 ≤ t.fuel ∧ t.stowed_at 0 = none := by
  refine ⟨Nat.zero_le _, Nat.zero_le _, ?_⟩
  induction h with
  | init => rfl
  | travel hr hs ih =>
      simp only [Train.stowed_at] at ih ⊢
      unfold Train.travel at hs
      split at hs
      · cases hs
      · split at hs
        · cases hs
        · split at hs
          · cases hs
            exact lookupStash_removeStash_of_eq_none _ _ _ ih
          · split at hs
            · cases hs
              exact ih
            · cases hs
              exact ih
  | stow hr hs ih =>
      simp only [Train.stowed_at] at ih ⊢
      unfold Train.stow_fuel at hs
      split at hs
      · cases hs
      next hc =>
        split at hs
        · cases hs
        · cases hs
          rw [lookupStash_addStash_ne _ _ _ _ (fun h0 => hc h0.symm)]
          exact ih

/-- C9 witness: the invariant applied to the concrete reachable state
obtained by travelling 200 from the initial state of goal (500, 600). -/
theorem reachable_invariant_witness :
    0 ≤ (Train.mk ⟨500, 600⟩ 200 300 []).location ∧
    0 ≤ (Train.mk ⟨500, 600⟩ 200 300 []).fuel ∧
    (Train.mk ⟨500, 600⟩ 200 300 []).stowed_at 0 = none :=
  reachable_invariant ⟨500, 600⟩ _
    (Reachable.travel (d := 200) Reachable.init rfl)

/-- C10: the tank is not capped at capacity: from the initial state of goal
(500, 600), travel 100, stow 300, travel back to the depot (automatic refill
to 500) and travel 100 again picking the stash back up, reaching fuel
700 > 500. -/
theorem fuel_exceeds_capacity_reachable :
    ∃ t, Reachable ⟨500, 600⟩ t ∧ (GoalSpec.mk 500 600).capacity < t.fuel :=
  ⟨Train.mk ⟨500, 600⟩ 100 700 [],
   Reachable.travel (d := 100)
     (Reachable.travel (u := Train.mk ⟨500, 600⟩ 0 500 [(100, 300)]) (d := -100)
       (Reachable.stow (u := Train.mk ⟨500, 600⟩ 100 100 [(100, 300)]) (a := 300)
         (Reachable.travel (u := Train.mk ⟨500, 600⟩ 100 400 []) (d := 100)
            Reachable.init (by decide)) (by decide)) (by decide)) (by decide),
   by decide⟩

theorem replayGo_ne_nil (s : Train) (cs : List Command) (l : List Train)
    (h : replayGo s cs = some l) : l ≠ [] := by
  cases cs with
  | nil =>
      unfold replayGo at h
      injection h with h2
      rw [← h2]
      simp
  | cons c cs =>
      unfold replayGo at h
      split at h
      · rcases Option.map_eq_some'.mp h with ⟨m, hm, heq⟩
        rw [← heq]
        simp
      · exact Option.noConfusion h

theorem replayGo_snoc (c : Command) (s2 : Train) (cs : List Command) :
    ∀ (s0 : Train) (l : List Train),
      replayGo s0 cs = some l →
      ∀ (last : Train), l.getLast? = some last → last.update c = .ok s2 →
      replayGo s0 (cs ++ [c]) = some (l ++ [s2]) := by
  induction cs with
  | nil =>
      intro s0 l h last hlast hu
      unfold replayGo at h
      injection h with h2
      rw [← h2] at hlast ⊢
      simp only [List.getLast?_singleton, Option.some.injEq] at hlast
      rw [← hlast] at hu
      show replayGo s0 [c] = _
      unfold replayGo
      rw [hu]
      unfold replayGo
      rfl
  | cons c0 cs ih =>
      intro s0 l h last hlast hu
      unfold replayGo at h
      split at h
      next s1 hu0 =>
        rcases Option.map_eq_some'.mp h with ⟨m, hm, heq⟩
        have hmne : m ≠ [] := replayGo_ne_nil s1 cs m hm
        have hlast_m : m.getLast? = some last := by
          rw [← heq] at hlast
          cases m with
          | nil => exact absurd rfl hmne
          | cons y ys => rw [List.getLast?_cons_cons] at hlast; exact hlast
        have hrec := ih s1 m hm last hlast_m hu
        show replayGo s0 (c0 :: (cs ++ [c])) = _
        unfold replayGo
        rw [hu0]
        show Option.map (fun l => s0 :: l) (replayGo s1 (cs ++ [c]))
          = some (l ++ [s2])
        rw [hrec, ← heq]
        rfl
      next => exact Option.noConfusion h

theorem update_err_msgs (t : Train) (c : Command) (e : Error)
    (h : t.update c = .error (.err e)) :
    e = movedBeyondDepot ∨ e = fuelExhausted ∨ e = stowAtDepot := by
  cases c with
  | Travel d =>
      simp only [Train.update] at h
      unfold Train.travel at h
      split at h
      · left
        injection h with h1
        injection h1 with h2
        exact h2.symm
      · split at h
        · right; left
          injection h with h1
          injection h1 with h2
          exact h2.symm
        · split at h
          · exact Except.noConfusion h
          · split at h <;> exact Except.noConfusion h
  | StowFuel a =>
      simp only [Train.update] at h
      unfold Train.stow_fuel at h
      split at h
      · right; right
        injection h with h1
        injection h1 with h2
        exact h2.symm
      · split at h
        · injection h with h1
          exact RtErr.noConfusion h1
        · exact Except.noConfusion h

/-- Exhaustive characterisation of a completed (non-panicking) run of the
driver loop: given that replaying the commands accumulated so far reproduces
the states accumulated so far (plus the current state), the returned summary
falls into exactly one of the four termination cases of the source loop,
with the corresponding relation between the replayed history and the live
`states` buffer. -/
theorem simulateLoop_cases {σ : Type} (goal : GoalSpec) (dec : StrategyFn σ) :
    ∀ (n : Nat) (state : Train) (strat : σ) (commands : List Command)
      (states : List Train) (summary : SimulationSummary) (live : List Train),
      replayGo (Train.fromSpec goal) commands = some (states ++ [state]) →
      simulateLoop goal dec n state strat commands states = .ok (summary, live) →
      summary.goal = goal ∧
      ((summary.result = .ok () ∧
          replayGo (Train.fromSpec goal) summary.commands = some live) ∨
       (summary.result = .error strategyExhausted ∧
          replayGo (Train.fromSpec goal) summary.commands = some live) ∨
       (∃ cs c e, summary.commands = cs ++ [c] ∧ summary.result = .error e ∧
          summary.final_state.update c = .error (.err e)) ∨
       (summary.result = .error iterationCapExceeded ∧
          replayGo (Train.fromSpec goal) summary.commands
            = some (live ++ [summary.final_state]))) := by
  intro n
  induction n with
  | zero =>
      intro state strat commands states summary live hinv hrun
      unfold simulateLoop at hrun
      simp only [Except.ok.injEq, Prod.mk.injEq] at hrun
      obtain ⟨h1, h2⟩ := hrun
      subst h1
      subst h2
      exact ⟨rfl, Or.inr (Or.inr (Or.inr ⟨rfl, hinv⟩))⟩
  | succ n ih =>
      intro state strat commands states summary live hinv hrun
      unfold simulateLoop at hrun
      by_cases hg : state.meets_goal goal = true
      · rw [if_pos hg] at hrun
        by_cases hassert : (SimulationSummary.mk goal state (.ok ()) commands).states
            = some (states ++ [state])
        · rw [if_pos hassert] at hrun
          simp only [Except.ok.injEq, Prod.mk.injEq] at hrun
          obtain ⟨h1, h2⟩ := hrun
          subst h1
          subst h2
          refine ⟨rfl, Or.inl ⟨rfl, ?_⟩⟩
          exact hassert
        · rw [if_neg hassert] at hrun
          exact Except.noConfusion hrun
      · rw [if_neg hg] at hrun
        rcases hd : dec strat state goal with ⟨opt, strat2⟩
        rw [hd] at hrun
        cases opt with
        | none =>
            simp only [Except.ok.injEq, Prod.mk.injEq] at hrun
            obtain ⟨h1, h2⟩ := hrun
            subst h1
            subst h2
            exact ⟨rfl, Or.inr (Or.inl ⟨rfl, hinv⟩)⟩
        | some c =>
            dsimp only at hrun
            cases hu : state.update c with
            | ok s2 =>
                rw [hu] at hrun
                dsimp only at hrun
                have hinv2 : replayGo (Train.fromSpec goal) (commands ++ [c])
                    = some ((states ++ [state]) ++ [s2]) := by
                  refine replayGo_snoc c s2 commands (Train.fromSpec goal)
                    (states ++ [state]) hinv state ?_ hu
                  exact (List.getLast?_append_cons states state []).trans rfl
                exact ih s2 strat2 (commands ++ [c]) (states ++ [state])
                  summary live hinv2 hrun
            | error er =>
                cases er with
                | err e =>
                    rw [hu] at hrun
                    simp only [Except.ok.injEq, Prod.mk.injEq] at hrun
                    obtain ⟨h1, h2⟩ := hrun
                    subst h1
                    subst h2
                    exact ⟨rfl,
                      Or.inr (Or.inr (Or.inl ⟨commands, c, e, rfl, rfl, hu⟩))⟩
                | panicked m =>
                    rw [hu] at hrun
                    exact Except.noConfusion hrun

/-- C7: for every run of `simulate` that terminates successfully, the state
sequence recomputed by `states()` (replaying the command trace from the
goal's initial state) equals, element for element, the live state history
recorded by the driver — this is exactly the property the source's
`assert_eq!(summary.states(), &states[..])` checks on the success path. -/
theorem states_replay_matches_history_on_success {σ : Type}
    (goal : GoalSpec) (strat : σ) (dec : StrategyFn σ)
    (summary : SimulationSummary) (live : List Train)
    (h : simulate goal strat dec = .ok (summary, live))
    (hok : summary.result = .ok ()) :
    summary.states = some live := by
  obtain ⟨hgoal, hcases⟩ := simulateLoop_cases goal dec 20
    (Train.fromSpec goal) strat [] [] summary live rfl h
  unfold SimulationSummary.states
  rw [hgoal]
  rcases hcases with ⟨-, hr⟩ | ⟨hres, -⟩ | ⟨cs, c, e, -, hres, -⟩ | ⟨hres, -⟩
  · exact hr
  · rw [hok] at hres
    exact Except.noConfusion hres
  · rw [hok] at hres
    exact Except.noConfusion hres
  · rw [hok] at hres
    exact Except.noConfusion hres

/-- C7 witness: the theorem applied to the crate's doctest scenario
(capacity 500, destination 600, the five-command plan). -/
theorem states_replay_matches_history_on_success_witness :
    (SimulationSummary.mk ⟨500, 600⟩ (Train.mk ⟨500, 600⟩ 600 0 [])
        (.ok ()) [Command.Travel 200, Command.StowFuel 100,
          Command.Travel (-200), Command.Travel 200, Command.Travel 400]).states
      = some [Train.mk ⟨500, 600⟩ 0 500 [], Train.mk ⟨500, 600⟩ 200 300 [],
          Train.mk ⟨500, 600⟩ 200 200 [(200, 100)],
          Train.mk ⟨500, 600⟩ 0 500 [(200, 100)],
          Train.mk ⟨500, 600⟩ 200 400 [], Train.mk ⟨500, 600⟩ 600 0 []] :=
  states_replay_matches_history_on_success ⟨500, 600⟩
    [Command.Travel 200, Command.StowFuel 100, Command.Travel (-200),
     Command.Travel 200, Command.Travel 400] listStrategy
    _ _ (by decide) rfl

/-- C2 counterexample: the claim extends the replay property to runs that
ended with a transition failure, but there `states()` panics instead of
being total: the failing command is recorded in the trace before the driver
observes its failure, so the replay's `.unwrap()` hits the same failure.
Concretely, simulating `[Travel(-1)]` against goal (500, 600) ends with the
`MovedBeyondDepot` transition failure and the returned summary's `states()`
panics (modelled as `none`). -/
theorem states_panics_on_failed_run :
    (simulate ⟨500, 600⟩ [Command.Travel (-1)] listStrategy).map
        (fun p => ((p.1).states, (p.1).result))
      = .ok (none, .error movedBeyondDepot) := by decide

/-- C2 (amended): `states()` is total and reproduces the live history for
every run that did not end with a transition failure: exactly for successful
and `StrategyExhausted` runs; for `IterationCapExceeded` runs the replay is
still total but carries one extra trailing state (the live buffer only
records states at iteration starts, and no 21st iteration pushes the final
state).  Transition-failure runs panic in `states()`
(see `states_panics_on_failed_run`). -/
theorem states_replay_characterised {σ : Type}
    (goal : GoalSpec) (strat : σ) (dec : StrategyFn σ)
    (summary : SimulationSummary) (live : List Train)
    (h : simulate goal strat dec = .ok (summary, live)) :
    ((summary.result = .ok () ∨ summary.result = .error strategyExhausted) →
        summary.states = some live) ∧
    (summary.result = .error iterationCapExceeded →
        summary.states = some (live ++ [summary.final_state])) := by
  obtain ⟨hgoal, hcases⟩ := simulateLoop_cases goal dec 20
    (Train.fromSpec goal) strat [] [] summary live rfl h
  constructor
  · intro hres
    unfold SimulationSummary.states
    rw [hgoal]
    rcases hcases with ⟨-, hrep⟩ | ⟨-, hrep⟩ | ⟨cs, c, e, -, hr, hupd⟩ | ⟨hr, -⟩
    · exact hrep
    · exact hrep
    · rcases hres with hok | hse
      · rw [hok] at hr
        exact Except.noConfusion hr
      · rw [hse] at hr
        injection hr with h1
        rcases update_err_msgs _ _ _ hupd with h2 | h2 | h2 <;>
          rw [h2] at h1 <;> exact absurd h1 (by decide)
    · rcases hres with hok | hse
      · rw [hok] at hr
        exact Except.noConfusion hr
      · rw [hse] at hr
        injection hr with h1
        exact absurd h1 (by decide)
  · intro hres
    unfold SimulationSummary.states
    rw [hgoal]
    rcases hcases with ⟨hr, -⟩ | ⟨hr, -⟩ | ⟨cs, c, e, -, hr, hupd⟩ | ⟨-, hrep⟩
    · rw [hres] at hr
      exact Except.noConfusion hr
    · rw [hres] at hr
      injection hr with h1
      exact absurd h1 (by decide)
    · rw [hres] at hr
      injection hr with h1
      rcases update_err_msgs _ _ _ hupd with h2 | h2 | h2 <;>
        rw [h2] at h1 <;> exact absurd h1 (by decide)
    · exact hrep

/-- C2 witness: the amended theorem applied to the empty-strategy run, which
ends with `StrategyExhausted` after recording only the initial state. -/
theorem states_replay_characterised_witness :
    (SimulationSummary.mk ⟨500, 600⟩ (Train.fromSpec ⟨500, 600⟩)
        (.error strategyExhausted) []).states
      = some [Train.fromSpec ⟨500, 600⟩] :=
  (states_replay_characterised ⟨500, 600⟩ ([] : List Command) listStrategy
      (SimulationSummary.mk ⟨500, 600⟩ (Train.fromSpec ⟨500, 600⟩)
        (.error strategyExhausted) [])
      [Train.fromSpec ⟨500, 600⟩] (by decide)).1 (Or.inr rfl)

/-- C5: the claim requires `simulate` to return a summary carrying the
failing transition's error for every goal and strategy; but a `stow_fuel`
whose amount exceeds the fuel does not fail with an error — it panics (see
`Train.stow_fuel`) and the panic unwinds out of `simulate`, so no summary is
produced at all.  Concretely: goal (500, 600), strategy replaying
`[Travel(1), StowFuel(600)]`. -/
theorem simulate_panics_on_stow_underflow :
    simulate ⟨500, 600⟩ [Command.Travel 1, Command.StowFuel 600] listStrategy
      = .error subtractOverflow := by decide

/-- C6: the spec's end-to-end scenario: capacity 500, destination 600,
commands `[Travel(200), StowFuel(100), Travel(-200), Travel(200),
Travel(400)]` — the simulation succeeds, `fuel_used()` is 1000 and the final
state's location is 600. -/
theorem simulate_example_scenario :
    (simulate ⟨500, 600⟩
        [Command.Travel 200, Command.StowFuel 100, Command.Travel (-200),
         Command.Travel 200, Command.Travel 400] listStrategy).map
        (fun p => ((p.1).result, (p.1).fuel_used, (p.1).final_state.location))
      = .ok (.ok (), 1000, 600) := by decide

end SteamTrainFuel
